import Mathlib

/-!
Verification development for the `torchrl` reinforcement-learning library.

The embedding mirrors the Python sources:
* `src/torchrl/learners/ppo_learner.py` (`BasePPOLearner`),
* `src/torchrl/learners/deep_q_learner.py` (`DeepQLearner`),
* `src/experiments/ppo.py` (the PPO training loop).

Numeric tensors are modelled as lists of rationals (the GAE recursion and the
Q-learning targets are exact arithmetic) or reals (where `exp` appears); the
actor-critic network is modelled as an opaque function from observations to
values/log-probabilities; fallible operations (Python `IndexError` on empty
indexing, arity-mismatched calls) become `Option`.
-/

namespace TorchRL

/-! ### `BasePPOLearner.compute_returns` (ppo_learner.py lines 36-66)

The Python code:
* evaluates the critic on `obs` to get `values[0..T-1]`;
* appends a bootstrap entry: `0.0` when `done[-1]` is truthy, otherwise the
  critic's estimate of `next_obs[-1]`;
* iterates `step` from `T-1` down to `0` maintaining `gae`, storing
  `returns[step] = gae + values[step]`;
* finally reverses the array (`returns = returns[::-1]`) before returning it.

`gaeList` is the backward recursion: processing the reward list from the head,
the accumulator `gae` is the one carried from the later steps, exactly as the
Python loop carries it from higher `step` to lower `step`.  It returns the
chronologically-indexed list (`returns[step]` written at position `step`)
together with the final `gae` value. -/

def gaeList (gamma lmbda : ℚ) : List ℚ → List ℚ → List ℚ × ℚ
  | [], _ => ([], 0)
  | _ :: _, [] => ([], 0)
  | r :: rs, v :: vs =>
    let rest := gaeList gamma lmbda rs vs
    let v1 := vs.headD 0
    let delta := r + gamma * v1 - v
    let gae := delta + gamma * lmbda * rest.2
    ((gae + v) :: rest.1, gae)

/-- The tail of `compute_returns` once the bootstrap value is fixed: run the
GAE recursion over `values ++ [boot]` and reverse the result, exactly as
`returns = returns[::-1]` does in the source. -/
def returnsWithBoot (gamma lmbda : ℚ) (values reward : List ℚ) (boot : ℚ) : List ℚ :=
  (gaeList gamma lmbda reward (values ++ [boot])).1.reverse

/-- Model of `BasePPOLearner.compute_returns`.  The critic `V` stands for the
value head of `self.ac_net`; `done.getLast?` / `next_obs.getLast?` model the
Python accesses `done[-1]` / `next_obs[-1]`, which raise on an empty sequence
(`none`). -/
def compute_returns {α : Type} (V : α → ℚ) (gamma lmbda : ℚ)
    (obs : List α) (reward : List ℚ) (next_obs : List α) (done : List Bool) :
    Option (List ℚ) :=
  match done.getLast? with
  | none => none
  | some true => some (returnsWithBoot gamma lmbda (obs.map V) reward 0)
  | some false =>
    (next_obs.getLast?).map fun s => returnsWithBoot gamma lmbda (obs.map V) reward (V s)

/-! ### `BasePPOLearner.learn` (ppo_learner.py lines 79-114)

The loss computation is modelled over lists of reals, one entry per
transition of the batch: `values`/`newLP`/`entropies` are the current
network's value estimates, log-probabilities of the taken actions, and
per-transition entropies, while `oldLP`/`oldValues` are the frozen snapshot
produced by `compute_old_data`.  `torch.clamp` is `clampT`, the
`torch.cat([surr1, surr2], dim=1).min(dim=1)[0]` step becomes rows `[a, b]`
reduced by `rowMin`, and `.mean()` is `meanR`. -/

/-- Model of `torch.clamp(x, lo, hi)`. -/
def clampT {α : Type} [LinearOrder α] (x lo hi : α) : α := min (max x lo) hi

/-- Row-wise minimum, as `torch.Tensor.min(dim=1)[0]` computes on each row of
the concatenated surrogate tensor. -/
def rowMin : List ℝ → ℝ
  | [] => 0
  | x :: xs => xs.foldl min x

/-- Model of `torch.Tensor.mean()`. -/
noncomputable def meanR (l : List ℝ) : ℝ := l.sum / l.length

/-- The `actor_loss` computed by `BasePPOLearner.learn` (lines 94-100):
`ratio = (new_log_probs - old_log_probs).exp()`, advantages against the
frozen `old_values`, the two surrogates, concatenation along `dim=1`,
row-wise minimum, mean, and negation. -/
noncomputable def actorLossCode (clip : ℝ) (newLP oldLP returns oldValues : List ℝ) : ℝ :=
  let ratios := List.zipWith (fun n o => Real.exp (n - o)) newLP oldLP
  let advantages := List.zipWith (fun r v => r - v) returns oldValues
  let surr1 := List.zipWith (fun x a => x * a) ratios advantages
  let surr2 := List.zipWith (fun x a => clampT x (1 - clip) (1 + clip) * a) ratios advantages
  let rows := List.zipWith (fun a b => [a, b]) surr1 surr2
  Neg.neg (meanR (rows.map rowMin))

/-- The actor loss as the specification phrases it:
`-mean(min(ratio * advantage, clip(ratio, 1-clip_ratio, 1+clip_ratio) * advantage))`
computed elementwise per transition. -/
noncomputable def actorLossSpec (clip : ℝ) (newLP oldLP returns oldValues : List ℝ) : ℝ :=
  -(meanR (List.zipWith
    (fun (p q : ℝ × ℝ) =>
      min (Real.exp (p.1 - p.2) * (q.1 - q.2))
        (clampT (Real.exp (p.1 - p.2)) (1 - clip) (1 + clip) * (q.1 - q.2)))
    (newLP.zip oldLP) (returns.zip oldValues)))

/-- The three loss components and the combined loss computed by `learn`
(lines 94-106). -/
structure PPOLosses where
  actor : ℝ
  critic : ℝ
  entropy : ℝ
  total : ℝ

/-- Loss computation of `BasePPOLearner.learn`: the actor loss as above, the
critic loss `(return_tensor - values).pow(2).mean()` against the current
values, the entropy regulariser, and
`loss = actor_loss + alpha * critic_loss - beta * entropy_loss`. -/
noncomputable def learnLosses (alpha beta clip : ℝ)
    (values newLP entropies oldLP returns oldValues : List ℝ) : PPOLosses :=
  let actor := actorLossCode clip newLP oldLP returns oldValues
  let critic := meanR (List.zipWith (fun r v => (r - v) ^ 2) returns values)
  let entropy := meanR entropies
  { actor := actor, critic := critic, entropy := entropy,
    total := actor + alpha * critic - beta * entropy }

/-- The gradient-related operations `learn` performs, in source order
(lines 108-110): `self.ac_net_optim.zero_grad()`, `loss.backward()`,
`self.ac_net_optim.step()`. -/
inductive GradOp where
  | zeroGrad
  | backwardLoss
  | optimStep
deriving DecidableEq

/-- The sequence of gradient operations executed by one `learn` call, in the
order they appear in the source. -/
def learnGradOps : List GradOp := [GradOp.zeroGrad, GradOp.backwardLoss, GradOp.optimStep]

/-! ### Call-shape of `learn` and its call site in `src/experiments/ppo.py` -/

/-- The positional parameters of `BasePPOLearner.learn` after `self`
(ppo_learner.py lines 79-80). -/
def learnParams : List String :=
  ["obs", "action", "reward", "next_obs", "done", "returns", "old_values", "old_log_probs"]

/-- The positional arguments passed at the call site
`agent.learn(*batch_history, returns, old_values, old_log_probs, minibatch_idx)`
in `src/experiments/ppo.py` line 33, where `batch_history` is the five-tuple
`(obs, action, reward, next_obs, done)`. -/
def trainLearnCallArgs : List String :=
  ["obs", "action", "reward", "next_obs", "done", "returns", "old_values",
   "old_log_probs", "minibatch_idx"]

/-! ### The rollout-cycle snapshot (ppo_learner.py lines 68-77, ppo.py lines 30-33)

`compute_old_data` evaluates the current network once on the full batch under
`torch.no_grad()`; the training loop then calls `learn` repeatedly with the
same snapshot while only the network parameters change.  `P` is the opaque
parameter space of `ac_net`; `vOf`/`lpOf` give the value estimates and
log-probabilities the network with given parameters assigns to the fixed
merged batch; `upd` is the opaque effect of one optimizer step. -/

/-- State of one rollout cycle of `train`: the live network parameters
together with the snapshot tensors held by the loop. -/
structure PPOCycle (P : Type) where
  params : P
  oldValues : List ℝ
  oldLogProbs : List ℝ

/-- Model of `BasePPOLearner.compute_old_data`: evaluate the current network
on the full merged batch, returning `(values, log_probs)`. -/
def compute_old_data {P : Type} (vOf lpOf : P → List ℝ) (p : P) : List ℝ × List ℝ :=
  (vOf p, lpOf p)

/-- The caller-visible effect of one `learn` call on the cycle state: the
optimizer step replaces the network parameters; the snapshot tensors are only
read (the `cuda()` branch rebinds local names and no in-place operation
touches them), so they pass through unchanged. -/
def learnStep {P : Type} (upd : P → P) (s : PPOCycle P) : PPOCycle P :=
  { params := upd s.params, oldValues := s.oldValues, oldLogProbs := s.oldLogProbs }

/-- The importance-sampling ratios `(new_log_probs - old_log_probs).exp()`
computed inside `learn` from the current parameters and the snapshot held in
the cycle state. -/
noncomputable def ratiosIn {P : Type} (lpOf : P → List ℝ) (s : PPOCycle P) : List ℝ :=
  List.zipWith (fun a b => Real.exp (a - b)) (lpOf s.params) s.oldLogProbs

/-! ### `DeepQLearner` (deep_q_learner.py)

`S` is the environment-state type and `P` the opaque parameter space of
`q_net`.  The Q-network is `q : P → S → List ℚ`, one action value per
discrete action; Q-values and targets are exact rationals, only the epsilon
schedule needs `Real.exp`.  The uniform random draw inside `learn` is made
explicit as the index list `idx` (with `dflt` the out-of-range default of the
total model); the opaque effect of `criterion`/`optimizer.step()` on the
parameters is `updP`, a function of the minibatch's current and target
Q-values. -/

/-- One replay-memory entry, as pushed by `DeepQLearner.transition`. -/
structure Transition (S : Type) where
  state : S
  action : ℕ
  reward : ℚ
  next_state : S
  done : Bool

/-- The transition with its done flag forgotten: exactly the fields of a
sampled minibatch that `DeepQLearner.learn` reads. -/
def stripDone {S : Type} (t : Transition S) : S × ℕ × ℚ × S :=
  (t.state, t.action, t.reward, t.next_state)

/-- Constructor hyper-parameters of `DeepQLearner`. -/
structure DQNConfig where
  gamma : ℚ
  eps_max : ℝ
  eps_min : ℝ
  temperature : ℝ
  batch_size : ℕ

/-- Internal state of a `DeepQLearner`: replay memory, cumulative effective
learn-call counter `_steps`, current exploration probability `_eps`, and the
`q_net` parameters. -/
structure DQNState (S P : Type) where
  memory : List (Transition S)
  steps : ℕ
  eps : ℝ
  params : P

/-- The epsilon-decay formula of deep_q_learner.py lines 70-71:
`eps_min + (eps_max - eps_min) * exp(-steps / temperature)`. -/
noncomputable def epsAfter (cfg : DQNConfig) (n : ℕ) : ℝ :=
  cfg.eps_min + (cfg.eps_max - cfg.eps_min) * Real.exp (-(n : ℝ) / cfg.temperature)

/-- Model of `Tensor.gather(1, batch_action)` on one row: the Q-value of the
taken action. -/
def gatherQ (qs : List ℚ) (a : ℕ) : ℚ := qs.getD a 0

/-- Model of `Tensor.max(1)[0]` on one row: the best action value. -/
def maxQ : List ℚ → ℚ
  | [] => 0
  | x :: xs => xs.foldl max x

/-- Model of `DeepQLearner.learn`: a no-op while the memory holds fewer than
`batch_size` transitions; otherwise it gathers the minibatch selected by
`idx`, computes `current_q_values` at the taken actions and the targets
`reward + gamma * max_next_q`, applies the optimizer step `updP` to the
parameters, increments `_steps` and decays `_eps`.  The second component
reports the regression pair the step was computed from (`none` when no step
was taken). -/
noncomputable def dqnLearn {S P : Type} (q : P → S → List ℚ)
    (updP : P → List ℚ → List ℚ → P) (cfg : DQNConfig)
    (s : DQNState S P) (idx : List ℕ) (dflt : Transition S) :
    DQNState S P × Option (List ℚ × List ℚ) :=
  if s.memory.length < cfg.batch_size then (s, none)
  else
    let batch := idx.map fun i => s.memory.getD i dflt
    let currentQ := batch.map fun t => gatherQ (q s.params t.state) t.action
    let expectedQ := batch.map fun t => t.reward + cfg.gamma * maxQ (q s.params t.next_state)
    ({ memory := s.memory, steps := s.steps + 1, eps := epsAfter cfg (s.steps + 1),
       params := updP s.params currentQ expectedQ },
     some (currentQ, expectedQ))

/-- A concrete hyper-parameter record at the source defaults
(`gamma=0.99, eps_max=1.0, eps_min=0.01, temperature=3500.0, batch_size=32`),
used by the concrete instantiations below. -/
noncomputable def dqnDefaultCfg : DQNConfig :=
  { gamma := 99 / 100, eps_max := 1, eps_min := 1 / 100,
    temperature := 3500, batch_size := 32 }

end TorchRL

namespace TorchRL

/-- Length of the chronological GAE output: one return target per reward. -/
theorem gaeList_length (gamma lmbda : ℚ) :
    ∀ (reward values : List ℚ), reward.length + 1 = values.length →
      (gaeList gamma lmbda reward values).1.length = reward.length := by
  intro reward
  induction reward with
  | nil => intro values _; simp [gaeList]
  | cons r rs ih =>
    intro values h
    cases values with
    | nil => simp at h
    | cons v vs =>
      simp only [List.length_cons, Nat.add_right_cancel_iff] at h
      simp [gaeList, ih vs h]

/-- The last chronological return target equals `r[T-1] + gamma * V[T]`:
unfolding one step of the backward recursion at `t = T-1`, where the incoming
`gae` accumulator is `0`. -/
theorem gaeList_getLast? (gamma lmbda : ℚ) :
    ∀ (reward values : List ℚ) (r v : ℚ),
      reward.getLast? = some r → values.getLast? = some v →
      reward.length + 1 = values.length →
      (gaeList gamma lmbda reward values).1.getLast? = some (r + gamma * v) := by
  intro reward
  induction reward with
  | nil => intro values r v hr _ _; simp at hr
  | cons r0 rs ih =>
    intro values r v hr hv hlen
    cases values with
    | nil => simp at hlen
    | cons v0 vs =>
      simp only [List.length_cons, Nat.add_right_cancel_iff] at hlen
      cases rs with
      | nil =>
        cases vs with
        | nil => simp at hlen
        | cons v1 vs' =>
          cases vs' with
          | nil =>
            simp only [List.getLast?_singleton, Option.some.injEq] at hr
            have hv' : v1 = v := by
              simpa using hv
            subst hr; subst hv'
            simp [gaeList]
          | cons _ _ => simp at hlen
      | cons r1 rs' =>
        cases vs with
        | nil => simp at hlen
        | cons v1 vs' =>
          have hr' : (r1 :: rs').getLast? = some r := by
            simpa using hr
          have hv' : (v1 :: vs').getLast? = some v := by
            simpa using hv
          have hrec := ih (v1 :: vs') r v hr' hv' hlen
          have hne : (gaeList gamma lmbda (r1 :: rs') (v1 :: vs')).1 ≠ [] := by
            intro hnil
            rw [hnil] at hrec
            simp at hrec
          obtain ⟨x, xs, hL⟩ := List.exists_cons_of_ne_nil hne
          show ((_ + v0) :: (gaeList gamma lmbda (r1 :: rs') (v1 :: vs')).1).getLast?
              = some (r + gamma * v)
          rw [hL] at hrec ⊢
          rw [List.getLast?_cons_cons]
          exact hrec

/-- C1: `compute_returns` is claimed to produce return targets in the same
order as the input segment, with the concrete case gamma = 0.99, lambda = 1,
rewards `[1,1,1]`, values `[0,0,0,0]` giving `[2.9701, 1.99, 1]`.  The code
fills `returns[step]` chronologically and then reverses the array
(`returns[::-1]`), so on that exact input it returns `[1, 1.99, 2.9701]` —
the claimed vector reversed, not the claimed vector. -/
theorem compute_returns_reversed_at_spec_example :
    compute_returns (fun _ : Unit => (0 : ℚ)) (99 / 100) 1
        [(), (), ()] [1, 1, 1] [()] [false, false, true]
      = some [1, 199 / 100, 29701 / 10000]
    ∧ some [1, 199 / 100, 29701 / 10000]
      ≠ some [29701 / 10000, 199 / 100, (1 : ℚ)] := by
  constructor
  · show some (returnsWithBoot _ _ _ _ _) = _
    rw [returnsWithBoot]
    norm_num [gaeList]
  · simp only [ne_eq, Option.some.injEq, List.cons.injEq]
    norm_num

/-- C9: the output of `compute_returns` reads the done-flag sequence only at
`done[-1]` and the next-observation sequence only at `next_obs[-1]`; any two
inputs agreeing on `obs`, `reward` and those two last elements produce
identical outputs. -/
theorem compute_returns_only_last_done_next_obs {α : Type} (V : α → ℚ)
    (gamma lmbda : ℚ) (obs : List α) (reward : List ℚ)
    (next_obs₁ next_obs₂ : List α) (done₁ done₂ : List Bool)
    (hdone : done₁.getLast? = done₂.getLast?)
    (hnext : next_obs₁.getLast? = next_obs₂.getLast?) :
    compute_returns V gamma lmbda obs reward next_obs₁ done₁
      = compute_returns V gamma lmbda obs reward next_obs₂ done₂ := by
  unfold compute_returns
  rw [hdone, hnext]

/-- Witness for C9 at a concrete input: the done flags and next observations
differ away from the last position, the outputs coincide. -/
theorem compute_returns_only_last_witness :
    ([false, true] : List Bool).getLast? = ([true, true] : List Bool).getLast?
    ∧ ([3, 7] : List ℚ).getLast? = ([5, 7] : List ℚ).getLast?
    ∧ compute_returns (fun x : ℚ => x) (99 / 100) (1 / 100)
        [2, 4] [1, 1] [3, 7] [false, true]
      = compute_returns (fun x : ℚ => x) (99 / 100) (1 / 100)
        [2, 4] [1, 1] [5, 7] [true, true] :=
  ⟨by decide, by decide,
    compute_returns_only_last_done_next_obs (fun x : ℚ => x) (99 / 100) (1 / 100)
      [2, 4] [1, 1] [3, 7] [5, 7] [false, true] [true, true]
      (by decide) (by decide)⟩

/-- The first element of the (reversed) output of `returnsWithBoot` is
`r[T-1] + gamma * boot`. -/
theorem returnsWithBoot_head? (gamma lmbda : ℚ) (values reward : List ℚ)
    (r : ℚ) (boot : ℚ) (hr : reward.getLast? = some r)
    (hlen : reward.length = values.length) :
    (returnsWithBoot gamma lmbda values reward boot).head? = some (r + gamma * boot) := by
  rw [returnsWithBoot, List.head?_reverse]
  apply gaeList_getLast? gamma lmbda reward (values ++ [boot]) r boot hr
  · rw [List.getLast?_append]
    simp
  · simp [hlen]

/-- C3: when the segment's last done flag is `true`, `compute_returns` uses
exactly `0` as the trailing bootstrap value; when it is `false`, it uses the
critic's estimate of `next_obs[-1]`; and the two outputs differ whenever the
critic estimate of `next_obs[-1]` is nonzero (the discount being nonzero). -/
theorem compute_returns_bootstrap {α : Type} (V : α → ℚ) (gamma lmbda : ℚ)
    (obs : List α) (reward : List ℚ) (next_obs : List α) (s : α)
    (doneT doneF : List Bool)
    (hT : doneT.getLast? = some true) (hF : doneF.getLast? = some false)
    (hs : next_obs.getLast? = some s)
    (hlen : obs.length = reward.length) (hne : reward ≠ [])
    (hg : gamma ≠ 0) (hV : V s ≠ 0) :
    compute_returns V gamma lmbda obs reward next_obs doneT
      = some (returnsWithBoot gamma lmbda (obs.map V) reward 0)
    ∧ compute_returns V gamma lmbda obs reward next_obs doneF
      = some (returnsWithBoot gamma lmbda (obs.map V) reward (V s))
    ∧ compute_returns V gamma lmbda obs reward next_obs doneT
      ≠ compute_returns V gamma lmbda obs reward next_obs doneF := by
  have hTeq : compute_returns V gamma lmbda obs reward next_obs doneT
      = some (returnsWithBoot gamma lmbda (obs.map V) reward 0) := by
    unfold compute_returns
    rw [hT]
  have hFeq : compute_returns V gamma lmbda obs reward next_obs doneF
      = some (returnsWithBoot gamma lmbda (obs.map V) reward (V s)) := by
    unfold compute_returns
    rw [hF, hs]
    rfl
  refine ⟨hTeq, hFeq, ?_⟩
  rw [hTeq, hFeq]
  intro hcontr
  have hlists := Option.some.inj hcontr
  have hr : reward.getLast? = some (reward.getLast hne) :=
    List.getLast?_eq_getLast_of_ne_nil hne
  have hlen' : reward.length = (obs.map V).length := by
    rw [List.length_map, hlen]
  have h0 := returnsWithBoot_head? gamma lmbda (obs.map V) reward
    (reward.getLast hne) 0 hr hlen'
  have h1 := returnsWithBoot_head? gamma lmbda (obs.map V) reward
    (reward.getLast hne) (V s) hr hlen'
  rw [hlists, h1] at h0
  have : gamma * V s = 0 := by
    have := Option.some.inj h0
    linarith
  exact (mul_ne_zero hg hV) this

/-- Witness for C3 at a concrete input: a one-step segment, critic `V = id`,
terminal next state `5`. -/
theorem compute_returns_bootstrap_witness :
    ([true] : List Bool).getLast? = some true
    ∧ ([false] : List Bool).getLast? = some false
    ∧ ([5] : List ℚ).getLast? = some 5
    ∧ (compute_returns (fun x : ℚ => x) (99 / 100) (1 / 100) [2] [1] [5] [true]
        = some (returnsWithBoot (99 / 100) (1 / 100) [2] [1] 0)
      ∧ compute_returns (fun x : ℚ => x) (99 / 100) (1 / 100) [2] [1] [5] [false]
        = some (returnsWithBoot (99 / 100) (1 / 100) [2] [1] 5)
      ∧ compute_returns (fun x : ℚ => x) (99 / 100) (1 / 100) [2] [1] [5] [true]
        ≠ compute_returns (fun x : ℚ => x) (99 / 100) (1 / 100) [2] [1] [5] [false]) :=
  ⟨rfl, rfl, rfl,
    compute_returns_bootstrap (fun x : ℚ => x) (99 / 100) (1 / 100) [2] [1] [5] 5
      [true] [false] rfl rfl rfl rfl (by simp) (by norm_num) (by norm_num)⟩

/-- The concatenate-then-row-minimum step of the actor loss agrees with the
elementwise specification formula, list by list. -/
theorem actorLoss_lists_eq (clip : ℝ) :
    ∀ (n o r v : List ℝ),
      ((List.zipWith (fun a b => [a, b])
          (List.zipWith (fun x a => x * a)
            (List.zipWith (fun x y => Real.exp (x - y)) n o)
            (List.zipWith (fun x y => x - y) r v))
          (List.zipWith (fun x a => clampT x (1 - clip) (1 + clip) * a)
            (List.zipWith (fun x y => Real.exp (x - y)) n o)
            (List.zipWith (fun x y => x - y) r v))).map rowMin)
        = List.zipWith
            (fun (p q : ℝ × ℝ) =>
              min (Real.exp (p.1 - p.2) * (q.1 - q.2))
                (clampT (Real.exp (p.1 - p.2)) (1 - clip) (1 + clip) * (q.1 - q.2)))
            (n.zip o) (r.zip v) := by
  intro n
  induction n with
  | nil => intro o r v; simp
  | cons x xs ih =>
    intro o r v
    cases o with
    | nil => simp
    | cons y ys =>
      cases r with
      | nil => simp
      | cons z zs =>
        cases v with
        | nil => simp
        | cons w ws =>
          simpa [rowMin] using ih ys zs ws

/-- C4: the reported `actor_loss` equals the clipped-surrogate formula
`-mean(min(ratio * advantage, clip(ratio, 1-clip_ratio, 1+clip_ratio) * advantage))`
with `ratio = exp(new_log_prob - old_log_prob)` and
`advantage = returns - old_values` (the frozen snapshot values, which `learn`
takes as a separate argument from the current critic output); and for
`clip_ratio = 0.2` a ratio of `1.5` is clamped to `1.2`. -/
theorem actor_loss_clipped_surrogate :
    (∀ (alpha beta clip : ℝ) (values newLP entropies oldLP returns oldValues : List ℝ),
        (learnLosses alpha beta clip values newLP entropies oldLP returns oldValues).actor
          = actorLossSpec clip newLP oldLP returns oldValues)
    ∧ clampT (3 / 2 : ℚ) (1 - 1 / 5) (1 + 1 / 5) = 6 / 5 := by
  constructor
  · intro alpha beta clip values newLP entropies oldLP returns oldValues
    show actorLossCode clip newLP oldLP returns oldValues
        = actorLossSpec clip newLP oldLP returns oldValues
    simp only [actorLossCode, actorLossSpec]
    rw [actorLoss_lists_eq clip newLP oldLP returns oldValues]
  · rw [clampT]
    norm_num

/-- C6 counterexample: the claim places the gradient zeroing after the
optimizer step, but in `learn` the `zero_grad()` call comes first
(ppo_learner.py line 108), before `backward()` and `step()`. -/
theorem learn_zero_grad_before_step :
    learnGradOps.indexOf GradOp.zeroGrad < learnGradOps.indexOf GradOp.optimStep
    ∧ ¬ learnGradOps.indexOf GradOp.optimStep < learnGradOps.indexOf GradOp.zeroGrad := by
  constructor <;> decide

/-- C6 (amended): every `learn` call optimizes the single combined loss
`actor_loss + alpha * critic_loss - beta * entropy_loss` with exactly one
backward pass and one optimizer step, zeroing the accumulated gradients
immediately before the backward pass (not after the step). -/
theorem learn_single_combined_step (alpha beta clip : ℝ)
    (values newLP entropies oldLP returns oldValues : List ℝ) :
    (learnLosses alpha beta clip values newLP entropies oldLP returns oldValues).total
      = (learnLosses alpha beta clip values newLP entropies oldLP returns oldValues).actor
        + alpha * (learnLosses alpha beta clip values newLP entropies oldLP returns oldValues).critic
        - beta * (learnLosses alpha beta clip values newLP entropies oldLP returns oldValues).entropy
    ∧ learnGradOps.count GradOp.backwardLoss = 1
    ∧ learnGradOps.count GradOp.optimStep = 1
    ∧ learnGradOps = [GradOp.zeroGrad, GradOp.backwardLoss, GradOp.optimStep] :=
  ⟨rfl, by decide, by decide, rfl⟩

/-- C2: the training loop passes a tenth positional argument
(`minibatch_idx`) but `BasePPOLearner.learn` declares only nine positional
parameters (`self` plus eight), none of them a minibatch-index parameter, so
the call raises a `TypeError` and no minibatch selection exists in `learn`. -/
theorem learn_has_no_minibatch_param :
    trainLearnCallArgs.length = learnParams.length + 1
    ∧ "minibatch_idx" ∉ learnParams
    ∧ ∀ name ∈ learnParams, name ≠ "minibatch_indices" := by
  refine ⟨rfl, by decide, by decide⟩

/-- Iterating the caller-visible effect of `learn` any number of times leaves
the snapshot fields of the cycle state untouched. -/
theorem learnStep_iterate_snapshot {P : Type} (upd : P → P) :
    ∀ (n : ℕ) (s : PPOCycle P),
      ((learnStep upd)^[n] s).oldValues = s.oldValues
      ∧ ((learnStep upd)^[n] s).oldLogProbs = s.oldLogProbs := by
  intro n
  induction n with
  | zero => intro s; exact ⟨rfl, rfl⟩
  | succ k ih =>
    intro s
    rw [Function.iterate_succ_apply']
    exact ⟨(ih s).1, (ih s).2⟩

/-- C5: across any number of `learn` calls within one rollout cycle, the
snapshot produced by one `compute_old_data` call is never mutated, and the
importance-sampling ratios of the next call are computed against the original
snapshot log-probabilities, however the live parameters have moved. -/
theorem learn_preserves_old_snapshot {P : Type} (vOf lpOf : P → List ℝ)
    (upd : P → P) (p₀ : P) (n : ℕ) :
    (((learnStep upd)^[n]
        { params := p₀, oldValues := (compute_old_data vOf lpOf p₀).1,
          oldLogProbs := (compute_old_data vOf lpOf p₀).2 }).oldValues = vOf p₀)
    ∧ (((learnStep upd)^[n]
        { params := p₀, oldValues := (compute_old_data vOf lpOf p₀).1,
          oldLogProbs := (compute_old_data vOf lpOf p₀).2 }).oldLogProbs = lpOf p₀)
    ∧ ratiosIn lpOf ((learnStep upd)^[n]
        { params := p₀, oldValues := (compute_old_data vOf lpOf p₀).1,
          oldLogProbs := (compute_old_data vOf lpOf p₀).2 })
      = List.zipWith (fun a b => Real.exp (a - b))
          (lpOf (((learnStep upd)^[n]
            { params := p₀, oldValues := (compute_old_data vOf lpOf p₀).1,
              oldLogProbs := (compute_old_data vOf lpOf p₀).2 }).params))
          (lpOf p₀) := by
  obtain ⟨h1, h2⟩ := learnStep_iterate_snapshot upd n
    { params := p₀, oldValues := (compute_old_data vOf lpOf p₀).1,
      oldLogProbs := (compute_old_data vOf lpOf p₀).2 }
  refine ⟨h1, h2, ?_⟩
  rw [ratiosIn, h2]
  rfl

/-- C7: while the replay memory holds fewer than `batch_size` transitions,
`DeepQLearner.learn` returns without any effect: the state (memory, step
counter, epsilon, parameters) is unchanged and no regression step is
computed. -/
theorem dqn_learn_noop_when_memory_short {S P : Type} (q : P → S → List ℚ)
    (updP : P → List ℚ → List ℚ → P) (cfg : DQNConfig)
    (s : DQNState S P) (idx : List ℕ) (dflt : Transition S)
    (h : s.memory.length < cfg.batch_size) :
    dqnLearn q updP cfg s idx dflt = (s, none) := by
  rw [dqnLearn, if_pos h]

/-- Witness for C7: an empty memory against the default `batch_size = 32`. -/
theorem dqn_learn_noop_witness :
    (({ memory := [], steps := 0, eps := 1, params := () } :
        DQNState ℕ Unit).memory.length < dqnDefaultCfg.batch_size)
    ∧ dqnLearn (fun _ _ => [0]) (fun p _ _ => p) dqnDefaultCfg
        { memory := [], steps := 0, eps := 1, params := () } [0]
        { state := 0, action := 0, reward := 0, next_state := 0, done := false }
      = ({ memory := [], steps := 0, eps := 1, params := () }, none) :=
  ⟨by simp [dqnDefaultCfg],
    dqn_learn_noop_when_memory_short (fun _ _ => [0]) (fun p _ _ => p) dqnDefaultCfg
      { memory := [], steps := 0, eps := 1, params := () } [0]
      { state := 0, action := 0, reward := 0, next_state := 0, done := false }
      (by simp [dqnDefaultCfg])⟩

/-- When the memory is long enough, one `learn` call keeps the memory,
increments the step counter, and sets epsilon from the decay formula. -/
theorem dqnLearn_effective {S P : Type} (q : P → S → List ℚ)
    (updP : P → List ℚ → List ℚ → P) (cfg : DQNConfig)
    (s : DQNState S P) (idx : List ℕ) (dflt : Transition S)
    (h : cfg.batch_size ≤ s.memory.length) :
    (dqnLearn q updP cfg s idx dflt).1.memory = s.memory
    ∧ (dqnLearn q updP cfg s idx dflt).1.steps = s.steps + 1
    ∧ (dqnLearn q updP cfg s idx dflt).1.eps = epsAfter cfg (s.steps + 1) := by
  rw [dqnLearn, if_neg (not_lt.mpr h)]
  exact ⟨rfl, rfl, rfl⟩

/-- Iterated effective `learn` calls: the memory never changes (only
`transition` pushes into it), the step counter counts the calls, and after at
least one call epsilon carries the decay formula value. -/
theorem dqnLearn_iterate {S P : Type} (q : P → S → List ℚ)
    (updP : P → List ℚ → List ℚ → P) (cfg : DQNConfig)
    (idx : List ℕ) (dflt : Transition S) :
    ∀ (n : ℕ) (s : DQNState S P), cfg.batch_size ≤ s.memory.length →
      ((fun t => (dqnLearn q updP cfg t idx dflt).1)^[n] s).memory = s.memory
      ∧ ((fun t => (dqnLearn q updP cfg t idx dflt).1)^[n] s).steps = s.steps + n
      ∧ (1 ≤ n →
          ((fun t => (dqnLearn q updP cfg t idx dflt).1)^[n] s).eps
            = epsAfter cfg (s.steps + n)) := by
  intro n
  induction n with
  | zero =>
    intro s _
    exact ⟨rfl, rfl, fun habs => absurd habs (by simp)⟩
  | succ k ih =>
    intro s hs
    obtain ⟨hmem, hsteps, _⟩ := ih s hs
    rw [Function.iterate_succ_apply']
    have hs' : cfg.batch_size ≤
        ((fun t => (dqnLearn q updP cfg t idx dflt).1)^[k] s).memory.length := by
      rw [hmem]; exact hs
    obtain ⟨e1, e2, e3⟩ := dqnLearn_effective q updP cfg _ idx dflt hs'
    refine ⟨by rw [e1, hmem], by rw [e2, hsteps]; omega, fun _ => ?_⟩
    rw [e3, hsteps, Nat.add_assoc]

/-- C8: the exploration probability after `n` effective learn calls equals
`eps_min + (eps_max - eps_min) * exp(-n / temperature)`; with
`eps_min ≤ eps_max` and a positive temperature this is non-increasing in `n`,
bounded below by `eps_min`, and converges to `eps_min`. -/
theorem epsilon_decay (cfg : DQNConfig)
    (h1 : cfg.eps_min ≤ cfg.eps_max) (h2 : 0 < cfg.temperature) :
    (∀ n m : ℕ, n ≤ m → epsAfter cfg m ≤ epsAfter cfg n)
    ∧ (∀ n : ℕ, cfg.eps_min ≤ epsAfter cfg n)
    ∧ Filter.Tendsto (epsAfter cfg) Filter.atTop (nhds cfg.eps_min)
    ∧ (∀ (S P : Type) (q : P → S → List ℚ) (updP : P → List ℚ → List ℚ → P)
        (idx : List ℕ) (dflt : Transition S) (mem : List (Transition S)) (p : P)
        (n : ℕ), cfg.batch_size ≤ mem.length →
        ((fun t => (dqnLearn q updP cfg t idx dflt).1)^[n]
            { memory := mem, steps := 0, eps := cfg.eps_max, params := p }).eps
          = epsAfter cfg n) := by
  have hΔ : 0 ≤ cfg.eps_max - cfg.eps_min := sub_nonneg.mpr h1
  refine ⟨?_, ?_, ?_, ?_⟩
  · intro n m hnm
    rw [epsAfter, epsAfter]
    apply add_le_add_left
    apply mul_le_mul_of_nonneg_left _ hΔ
    apply Real.exp_le_exp.mpr
    rw [div_le_div_iff_of_pos_right h2]
    exact neg_le_neg (Nat.cast_le.mpr hnm)
  · intro n
    rw [epsAfter]
    have : 0 ≤ (cfg.eps_max - cfg.eps_min) * Real.exp (-(n : ℝ) / cfg.temperature) :=
      mul_nonneg hΔ (Real.exp_pos _).le
    linarith
  · have hdiv : Filter.Tendsto (fun n : ℕ => -(n : ℝ) / cfg.temperature)
        Filter.atTop Filter.atBot := by
      have := Filter.Tendsto.atTop_div_const_of_neg (neg_neg_iff_pos.mpr h2)
        (tendsto_natCast_atTop_atTop (R := ℝ))
      simpa [div_neg, neg_div] using this
    have hexp : Filter.Tendsto (fun n : ℕ => Real.exp (-(n : ℝ) / cfg.temperature))
        Filter.atTop (nhds 0) := Real.tendsto_exp_atBot.comp hdiv
    have := (hexp.const_mul (cfg.eps_max - cfg.eps_min)).const_add cfg.eps_min
    simpa [epsAfter] using this
  · intro S P q updP idx dflt mem p n hmem
    cases n with
    | zero =>
      show cfg.eps_max = epsAfter cfg 0
      rw [epsAfter]
      norm_num
    | succ k =>
      have := (dqnLearn_iterate q updP cfg idx dflt (k + 1)
        { memory := mem, steps := 0, eps := cfg.eps_max, params := p } hmem).2.2
        (by omega)
      simpa using this

/-- Witness for C8 at the source's default hyper-parameters and a 32-entry
memory. -/
theorem epsilon_decay_witness :
    dqnDefaultCfg.eps_min ≤ dqnDefaultCfg.eps_max
    ∧ (0 : ℝ) < dqnDefaultCfg.temperature
    ∧ ((∀ n m : ℕ, n ≤ m → epsAfter dqnDefaultCfg m ≤ epsAfter dqnDefaultCfg n)
      ∧ (∀ n : ℕ, dqnDefaultCfg.eps_min ≤ epsAfter dqnDefaultCfg n)
      ∧ Filter.Tendsto (epsAfter dqnDefaultCfg) Filter.atTop (nhds dqnDefaultCfg.eps_min)
      ∧ (∀ (S P : Type) (q : P → S → List ℚ) (updP : P → List ℚ → List ℚ → P)
          (idx : List ℕ) (dflt : Transition S) (mem : List (Transition S)) (p : P)
          (n : ℕ), dqnDefaultCfg.batch_size ≤ mem.length →
          ((fun t => (dqnLearn q updP dqnDefaultCfg t idx dflt).1)^[n]
              { memory := mem, steps := 0, eps := dqnDefaultCfg.eps_max, params := p }).eps
            = epsAfter dqnDefaultCfg n)) :=
  ⟨by rw [dqnDefaultCfg]; norm_num, by rw [dqnDefaultCfg]; norm_num,
    epsilon_decay dqnDefaultCfg (by rw [dqnDefaultCfg]; norm_num)
      (by rw [dqnDefaultCfg]; norm_num)⟩

/-- Mapping commutes with positional lookup-with-default. -/
theorem getD_map {α β : Type} (f : α → β) :
    ∀ (l : List α) (i : ℕ) (d : α), (l.map f).getD i (f d) = f (l.getD i d) := by
  intro l
  induction l with
  | nil => intro i d; simp
  | cons a t ih => intro i d; cases i <;> simp [ih]

/-- Pointwise-equal functions map lists identically. -/
theorem map_ext_fun {α β : Type} (f g : α → β) (h : ∀ a, f a = g a) :
    ∀ l : List α, l.map f = l.map g := by
  intro l
  induction l with
  | nil => rfl
  | cons a t ih => simp only [List.map_cons, h a, ih]

/-- C10: `DeepQLearner.learn` never reads the sampled done flags — the target
is `reward + gamma * max_a Q(next_state, a)` even for terminal transitions —
so two learners whose memories (and lookup defaults) differ only in done
flags compute identical regression pairs, take identical parameter updates,
and advance their counters and epsilon identically. -/
theorem dqn_learn_ignores_done {S P : Type} (q : P → S → List ℚ)
    (updP : P → List ℚ → List ℚ → P) (cfg : DQNConfig)
    (s₁ s₂ : DQNState S P) (idx : List ℕ) (d₁ d₂ : Transition S)
    (hmem : s₁.memory.map stripDone = s₂.memory.map stripDone)
    (hd : stripDone d₁ = stripDone d₂)
    (hsteps : s₁.steps = s₂.steps) (hparams : s₁.params = s₂.params)
    (heps : s₁.eps = s₂.eps) :
    (dqnLearn q updP cfg s₁ idx d₁).2 = (dqnLearn q updP cfg s₂ idx d₂).2
    ∧ (dqnLearn q updP cfg s₁ idx d₁).1.params = (dqnLearn q updP cfg s₂ idx d₂).1.params
    ∧ (dqnLearn q updP cfg s₁ idx d₁).1.steps = (dqnLearn q updP cfg s₂ idx d₂).1.steps
    ∧ (dqnLearn q updP cfg s₁ idx d₁).1.eps = (dqnLearn q updP cfg s₂ idx d₂).1.eps := by
  have hlen : s₁.memory.length = s₂.memory.length := by
    have := congrArg List.length hmem
    simpa using this
  have hpoint : ∀ i, stripDone (s₁.memory.getD i d₁) = stripDone (s₂.memory.getD i d₂) := by
    intro i
    rw [← getD_map stripDone, ← getD_map stripDone, hmem, hd]
  by_cases hshort : s₁.memory.length < cfg.batch_size
  · have h₁ := dqn_learn_noop_when_memory_short q updP cfg s₁ idx d₁ hshort
    have h₂ := dqn_learn_noop_when_memory_short q updP cfg s₂ idx d₂ (hlen ▸ hshort)
    rw [h₁, h₂]
    exact ⟨rfl, hparams, hsteps, heps⟩
  · have hbatchQ :
        (idx.map fun i => s₁.memory.getD i d₁).map
            (fun t => gatherQ (q s₁.params t.state) t.action)
          = (idx.map fun i => s₂.memory.getD i d₂).map
            (fun t => gatherQ (q s₂.params t.state) t.action) := by
      rw [List.map_map, List.map_map, hparams]
      apply map_ext_fun
      intro i
      show gatherQ (q s₂.params (stripDone (s₁.memory.getD i d₁)).1)
          (stripDone (s₁.memory.getD i d₁)).2.1
        = gatherQ (q s₂.params (stripDone (s₂.memory.getD i d₂)).1)
          (stripDone (s₂.memory.getD i d₂)).2.1
      rw [hpoint i]
    have hbatchE :
        (idx.map fun i => s₁.memory.getD i d₁).map
            (fun t => t.reward + cfg.gamma * maxQ (q s₁.params t.next_state))
          = (idx.map fun i => s₂.memory.getD i d₂).map
            (fun t => t.reward + cfg.gamma * maxQ (q s₂.params t.next_state)) := by
      rw [List.map_map, List.map_map, hparams]
      apply map_ext_fun
      intro i
      show (stripDone (s₁.memory.getD i d₁)).2.2.1
            + cfg.gamma * maxQ (q s₂.params (stripDone (s₁.memory.getD i d₁)).2.2.2)
        = (stripDone (s₂.memory.getD i d₂)).2.2.1
            + cfg.gamma * maxQ (q s₂.params (stripDone (s₂.memory.getD i d₂)).2.2.2)
      rw [hpoint i]
    have hnot₂ : ¬ s₂.memory.length < cfg.batch_size := hlen ▸ hshort
    rw [dqnLearn, dqnLearn, if_neg hshort, if_neg hnot₂]
    simp only
    rw [hbatchQ, hbatchE, hparams, hsteps]
    exact ⟨rfl, rfl, rfl, rfl⟩

/-- Witness for C10: two one-entry memories identical except for the done
flag. -/
theorem dqn_learn_ignores_done_witness :
    (([{ state := 0, action := 0, reward := 1, next_state := 1, done := true }] :
          List (Transition ℕ)).map stripDone
        = ([{ state := 0, action := 0, reward := 1, next_state := 1, done := false }] :
          List (Transition ℕ)).map stripDone)
    ∧ ((dqnLearn (fun _ : Unit => fun n : ℕ => [(n : ℚ)]) (fun p _ _ => p) dqnDefaultCfg
          { memory := [{ state := 0, action := 0, reward := 1, next_state := 1, done := true }],
            steps := 0, eps := 1, params := () } [0]
          { state := 0, action := 0, reward := 0, next_state := 0, done := true }).2
        = (dqnLearn (fun _ : Unit => fun n : ℕ => [(n : ℚ)]) (fun p _ _ => p) dqnDefaultCfg
          { memory := [{ state := 0, action := 0, reward := 1, next_state := 1, done := false }],
            steps := 0, eps := 1, params := () } [0]
          { state := 0, action := 0, reward := 0, next_state := 0, done := false }).2) :=
  ⟨rfl,
    (dqn_learn_ignores_done (fun _ : Unit => fun n : ℕ => [(n : ℚ)]) (fun p _ _ => p)
      dqnDefaultCfg
      { memory := [{ state := 0, action := 0, reward := 1, next_state := 1, done := true }],
        steps := 0, eps := 1, params := () }
      { memory := [{ state := 0, action := 0, reward := 1, next_state := 1, done := false }],
        steps := 0, eps := 1, params := () } [0]
      { state := 0, action := 0, reward := 0, next_state := 0, done := true }
      { state := 0, action := 0, reward := 0, next_state := 0, done := false }
      rfl rfl rfl rfl rfl).1⟩

end TorchRL
